import Mathlib

/-
Verification of the command-execution engine of `putput` (src/main.rs).

The engine pipes one line of user input into several externally configured
commands, each run in its own thread, and reports each command's output (or a
formatted failure string) back over a channel to a single consumer that
updates per-command presentation rows.

Shallow embedding: the pure control flow of `execute_command`,
`run_commands_async`, the output-row update in `build_ui`'s receiver loop, the
clear-then-dispatch trigger path, and the Ctrl+digit copy-shortcut handler are
translated into Lean functions.  Interactions with the operating system
(spawning a child process, writing to its stdin, waiting for it) are modelled
by an explicit oracle describing what the OS and the child do; the embedding
additionally records which OS calls were made (`spawnCall`, `waited`) so that
claims about spawning and reaping can be stated.
-/

namespace Putput

/-! ## Byte-level string primitives

Models of the Rust standard-library functions used by `execute_command`:
`str::split_whitespace`, `str::trim_end`, and `String::from_utf8_lossy`.
Bytes are modelled as natural numbers (values 0–255). -/

/-- Unicode code points with the White_Space property, as used by Rust's
`char::is_whitespace`. -/
def isRustWhitespace (c : Char) : Bool :=
  let n := c.toNat
  n == 0x20 || (0x9 ≤ n && n ≤ 0xD) || n == 0x85 || n == 0xA0 || n == 0x1680 ||
    (0x2000 ≤ n && n ≤ 0x200A) || n == 0x2028 || n == 0x2029 || n == 0x202F ||
    n == 0x205F || n == 0x3000

/-- Accumulator-based worker for `splitWhitespace`: `acc` holds the reversed
characters of the token currently being read. -/
def splitWSAux : List Char → List Char → List String
  | [], acc => if acc = [] then [] else [String.mk acc.reverse]
  | c :: rest, acc =>
    if isRustWhitespace c then
      if acc = [] then splitWSAux rest []
      else String.mk acc.reverse :: splitWSAux rest []
    else splitWSAux rest (c :: acc)

/-- Model of Rust's `str::split_whitespace`: split at Unicode whitespace and
drop empty substrings. -/
def splitWhitespace (s : String) : List String :=
  splitWSAux s.data []

/-- Model of Rust's `str::trim_end`: remove all trailing Unicode whitespace. -/
def rustTrimEnd (s : String) : String :=
  String.mk (s.data.reverse.dropWhile isRustWhitespace).reverse

/-- Continuation byte test: `0x80 ≤ b ≤ 0xBF`. -/
def contByte (b : Nat) : Bool :=
  0x80 ≤ b && b ≤ 0xBF

/-- Unicode replacement character U+FFFD. -/
def replChar : Char := Char.ofNat 0xFFFD

/-- Decode one UTF-8 sequence starting at byte `b` with remaining bytes
`rest`; return the decoded character and the number of bytes consumed
(at least 1).  Follows Rust's UTF-8 validation ranges (no overlong forms, no
surrogates, max U+10FFFF); an invalid sequence yields U+FFFD covering its
maximal valid prefix, as in `String::from_utf8_lossy`. -/
def utf8DecodeStep (b : Nat) (rest : List Nat) : Char × Nat :=
  if b ≤ 0x7F then (Char.ofNat b, 1)
  else if 0xC2 ≤ b ∧ b ≤ 0xDF then
    match rest with
    | [] => (replChar, 1)
    | c1 :: _ =>
      if contByte c1 then (Char.ofNat ((b - 0xC0) * 0x40 + (c1 - 0x80)), 2)
      else (replChar, 1)
  else if 0xE0 ≤ b ∧ b ≤ 0xEF then
    let lo2 := if b = 0xE0 then 0xA0 else 0x80
    let hi2 := if b = 0xED then 0x9F else 0xBF
    match rest with
    | [] => (replChar, 1)
    | c1 :: rest1 =>
      if lo2 ≤ c1 ∧ c1 ≤ hi2 then
        match rest1 with
        | [] => (replChar, 2)
        | c2 :: _ =>
          if contByte c2 then
            (Char.ofNat ((b - 0xE0) * 0x1000 + (c1 - 0x80) * 0x40 + (c2 - 0x80)), 3)
          else (replChar, 2)
      else (replChar, 1)
  else if 0xF0 ≤ b ∧ b ≤ 0xF4 then
    let lo2 := if b = 0xF0 then 0x90 else 0x80
    let hi2 := if b = 0xF4 then 0x8F else 0xBF
    match rest with
    | [] => (replChar, 1)
    | c1 :: rest1 =>
      if lo2 ≤ c1 ∧ c1 ≤ hi2 then
        match rest1 with
        | [] => (replChar, 2)
        | c2 :: rest2 =>
          if contByte c2 then
            match rest2 with
            | [] => (replChar, 3)
            | c3 :: _ =>
              if contByte c3 then
                (Char.ofNat ((b - 0xF0) * 0x40000 + (c1 - 0x80) * 0x1000 +
                  (c2 - 0x80) * 0x40 + (c3 - 0x80)), 4)
              else (replChar, 3)
          else (replChar, 2)
      else (replChar, 1)
  else (replChar, 1)

/-- Fuel-bounded decoding loop; each step consumes at least one byte, so
`fuel = bs.length` always suffices and the bound is never hit. Structural
recursion on the fuel keeps the function kernel-computable. -/
def utf8LossyCharsGo : Nat → List Nat → List Char
  | 0, _ => []
  | _, [] => []
  | fuel + 1, b :: rest =>
    (utf8DecodeStep b rest).1 ::
      utf8LossyCharsGo fuel (rest.drop ((utf8DecodeStep b rest).2 - 1))

/-- Decode a byte list as lossy UTF-8 into a character list. -/
def utf8LossyChars (bs : List Nat) : List Char :=
  utf8LossyCharsGo bs.length bs

/-- Model of Rust's `String::from_utf8_lossy`: total decoding of arbitrary
bytes, replacing invalid sequences with U+FFFD. -/
def utf8Lossy (bs : List Nat) : String :=
  String.mk (utf8LossyChars bs)

/-- UTF-8 encoding of one character. -/
def utf8EncodeChar (c : Char) : List Nat :=
  let n := c.toNat
  if n < 0x80 then [n]
  else if n < 0x800 then [0xC0 + n / 0x40, 0x80 + n % 0x40]
  else if n < 0x10000 then
    [0xE0 + n / 0x1000, 0x80 + (n / 0x40) % 0x40, 0x80 + n % 0x40]
  else
    [0xF0 + n / 0x40000, 0x80 + (n / 0x1000) % 0x40, 0x80 + (n / 0x40) % 0x40,
      0x80 + n % 0x40]

/-- UTF-8 bytes of a string, as in Rust's `str::as_bytes`. -/
def stringBytes (s : String) : List Nat :=
  (s.data.map utf8EncodeChar).flatten

/-! ## OS model

`execute_command` interacts with the operating system through
`Command::spawn`, `ChildStdin::write_all` and `Child::wait_with_output`.
These effects are modelled by an oracle: given the program, its argument list,
and the input text the worker will write to the child's stdin, the oracle
says whether the spawn succeeds and, if so, how the child behaves. -/

/-- Outcome of a terminated child process, as captured by
`Child::wait_with_output`: exit status (success flag plus its `Display`
rendering) and the raw bytes of the captured stdout and stderr streams. -/
structure ProcOutput where
  success : Bool
  statusDisplay : String
  stdout : List Nat
  stderr : List Nat
deriving DecidableEq

/-- Behaviour of a successfully spawned child: whether `child.stdin.take()`
yields a handle, whether writing the input to it fails (with the rendered OS
error), and what `wait_with_output` returns. -/
structure ChildBehavior where
  stdinAvailable : Bool
  writeError : Option String
  waitResult : Except String ProcOutput

/-- Result of the `Command::spawn` call. -/
inductive SpawnResult where
  | err (cause : String)
  | ok (child : ChildBehavior)

/-- Deterministic model of the OS: what spawning `program` with `args` does,
given the `input` the worker writes to the child's stdin. -/
def SpawnOracle : Type :=
  String → List String → String → SpawnResult

/-! ## Worker: `execute_command` -/

/-- Execution-path classification of one worker run.  The five categories the
specification names, plus `waitFailure` for the `wait_with_output` error
branch present in the source. -/
inductive ResultCategory where
  | emptyCommand
  | spawnFailure
  | stdinWriteFailure
  | waitFailure
  | nonZeroExit
  | success
deriving DecidableEq

/-- Instrumented outcome of one `execute_command` run: the returned string,
the `(program, args)` pair passed to `Command::spawn` (`none` when no spawn
was attempted), whether `wait_with_output` was called (the child was reaped),
and the execution-path category. -/
structure ExecOutcome where
  result : String
  spawnCall : Option (String × List String)
  waited : Bool
  category : ResultCategory
deriving DecidableEq

/-- Embedding of `execute_command` (src/main.rs lines 356-408), instrumented
with the OS calls it makes.  Mirrors the source: whitespace-tokenize the
command string; on zero tokens return "Error: Empty command" without
spawning; otherwise spawn `program` with `args` and all three standard
streams piped; on spawn error return the formatted cause; write the input to
stdin if a handle is present, returning early (without waiting) on a write
error; finally wait for the child and format its output by exit status. -/
def execute_command_full (os : SpawnOracle) (cmd_str : String) (input : String) :
    ExecOutcome :=
  match splitWhitespace cmd_str with
  | [] =>
    ⟨"Error: Empty command", none, false, ResultCategory.emptyCommand⟩
  | program :: args =>
    match os program args input with
    | SpawnResult.err e =>
      ⟨"Failed to execute '" ++ cmd_str ++ "': " ++ e,
        some (program, args), false, ResultCategory.spawnFailure⟩
    | SpawnResult.ok child =>
      match (if child.stdinAvailable then child.writeError else none) with
      | some e =>
        ⟨"Error writing to stdin: " ++ e,
          some (program, args), false, ResultCategory.stdinWriteFailure⟩
      | none =>
        match child.waitResult with
        | Except.error e =>
          ⟨"Failed to get command output: " ++ e,
            some (program, args), true, ResultCategory.waitFailure⟩
        | Except.ok output =>
          if output.success then
            ⟨rustTrimEnd (utf8Lossy output.stdout),
              some (program, args), true, ResultCategory.success⟩
          else
            ⟨"Failed (" ++ output.statusDisplay ++ "):\n" ++
                rustTrimEnd (utf8Lossy output.stderr),
              some (program, args), true, ResultCategory.nonZeroExit⟩

/-- String returned by one worker run, as `execute_command` returns it. -/
def execute_command (os : SpawnOracle) (cmd_str : String) (input : String) :
    String :=
  (execute_command_full os cmd_str input).result

/-! ## Execution-shape lemmas

One lemma per branch of `execute_command`, shared by the claim theorems. -/

/-- Shape of a run whose command string tokenizes to nothing. -/
theorem exec_shape_empty (os : SpawnOracle) (cmd input : String)
    (hsplit : splitWhitespace cmd = []) :
    execute_command_full os cmd input =
      ⟨"Error: Empty command", none, false, ResultCategory.emptyCommand⟩ := by
  simp only [execute_command_full, hsplit]

/-- Shape of a run whose spawn fails. -/
theorem exec_shape_spawn_err (os : SpawnOracle) (cmd input p : String)
    (as : List String) (e : String)
    (hsplit : splitWhitespace cmd = p :: as)
    (hspawn : os p as input = SpawnResult.err e) :
    execute_command_full os cmd input =
      ⟨"Failed to execute '" ++ cmd ++ "': " ++ e, some (p, as), false,
        ResultCategory.spawnFailure⟩ := by
  simp only [execute_command_full, hsplit, hspawn]

/-- Shape of a run whose stdin write fails. -/
theorem exec_shape_write_err (os : SpawnOracle) (cmd input p : String)
    (as : List String) (child : ChildBehavior) (e : String)
    (hsplit : splitWhitespace cmd = p :: as)
    (hspawn : os p as input = SpawnResult.ok child)
    (hstdin : child.stdinAvailable = true)
    (hwerr : child.writeError = some e) :
    execute_command_full os cmd input =
      ⟨"Error writing to stdin: " ++ e, some (p, as), false,
        ResultCategory.stdinWriteFailure⟩ := by
  simp only [execute_command_full, hsplit, hspawn, hstdin, hwerr, if_true]

/-- Shape of a run where waiting for the child fails. -/
theorem exec_shape_wait_err (os : SpawnOracle) (cmd input p : String)
    (as : List String) (child : ChildBehavior) (e : String)
    (hsplit : splitWhitespace cmd = p :: as)
    (hspawn : os p as input = SpawnResult.ok child)
    (hwn : (if child.stdinAvailable then child.writeError else none) = none)
    (hwait : child.waitResult = Except.error e) :
    execute_command_full os cmd input =
      ⟨"Failed to get command output: " ++ e, some (p, as), true,
        ResultCategory.waitFailure⟩ := by
  simp only [execute_command_full, hsplit, hspawn, hwn, hwait]

/-- Shape of a run whose child exits successfully. -/
theorem exec_shape_success (os : SpawnOracle) (cmd input p : String)
    (as : List String) (child : ChildBehavior) (out : ProcOutput)
    (hsplit : splitWhitespace cmd = p :: as)
    (hspawn : os p as input = SpawnResult.ok child)
    (hwn : (if child.stdinAvailable then child.writeError else none) = none)
    (hwait : child.waitResult = Except.ok out)
    (hsucc : out.success = true) :
    execute_command_full os cmd input =
      ⟨rustTrimEnd (utf8Lossy out.stdout), some (p, as), true,
        ResultCategory.success⟩ := by
  simp only [execute_command_full, hsplit, hspawn, hwn, hwait, hsucc, if_true]

/-- Shape of a run whose child exits with a failure status. -/
theorem exec_shape_nonzero (os : SpawnOracle) (cmd input p : String)
    (as : List String) (child : ChildBehavior) (out : ProcOutput)
    (hsplit : splitWhitespace cmd = p :: as)
    (hspawn : os p as input = SpawnResult.ok child)
    (hwn : (if child.stdinAvailable then child.writeError else none) = none)
    (hwait : child.waitResult = Except.ok out)
    (hsucc : out.success = false) :
    execute_command_full os cmd input =
      ⟨"Failed (" ++ out.statusDisplay ++ "):\n" ++
          rustTrimEnd (utf8Lossy out.stderr), some (p, as), true,
        ResultCategory.nonZeroExit⟩ := by
  simp only [execute_command_full, hsplit, hspawn, hwn, hwait, hsucc,
    Bool.false_eq_true, if_false]

/-! ## Tokenization properties -/

/-- Tokens emitted from a nonempty accumulator of non-whitespace characters
are nonempty and whitespace-free. -/
theorem token_of_acc (acc : List Char) (hne : acc ≠ [])
    (hacc : ∀ c ∈ acc, isRustWhitespace c = false) :
    String.mk acc.reverse ≠ "" ∧
      ∀ c ∈ (String.mk acc.reverse).data, isRustWhitespace c = false := by
  constructor
  · intro hEq
    have hd : (String.mk acc.reverse).data = ("" : String).data := by rw [hEq]
    simp only [String.mk] at hd
    have : acc.reverse = [] := hd
    exact hne (by simpa using this)
  · intro c hc
    have : c ∈ acc := by simpa using hc
    exact hacc c this

/-- Every token produced by `splitWSAux` from a whitespace-free accumulator is
nonempty and contains no whitespace character. -/
theorem splitWSAux_tokens (cs : List Char) :
    ∀ acc, (∀ c ∈ acc, isRustWhitespace c = false) →
      ∀ t ∈ splitWSAux cs acc,
        t ≠ "" ∧ ∀ c ∈ t.data, isRustWhitespace c = false := by
  induction cs with
  | nil =>
    intro acc hacc t ht
    simp only [splitWSAux] at ht
    split at ht
    · simp at ht
    · rename_i hne
      have : t = String.mk acc.reverse := by simpa using ht
      subst this
      exact token_of_acc acc hne hacc
  | cons c rest ih =>
    intro acc hacc t ht
    simp only [splitWSAux] at ht
    split at ht
    · split at ht
      · exact ih [] (by simp) t ht
      · rename_i hne
        simp only [List.mem_cons] at ht
        rcases ht with rfl | ht
        · exact token_of_acc acc hne hacc
        · exact ih [] (by simp) t ht
    · rename_i hws
      refine ih (c :: acc) ?_ t ht
      intro x hx
      rcases List.mem_cons.mp hx with rfl | hx
      · exact Bool.not_eq_true _ |>.mp hws |> fun h => by
          cases hxx : isRustWhitespace x
          · rfl
          · exact absurd hxx hws
      · exact hacc x hx

/-- Every token of `splitWhitespace` is nonempty and whitespace-free. -/
theorem splitWhitespace_tokens (s : String) :
    ∀ t ∈ splitWhitespace s,
      t ≠ "" ∧ ∀ c ∈ t.data, isRustWhitespace c = false :=
  splitWSAux_tokens s.data [] (by simp)

/-- Projection of the worker run instrumentation: whenever tokenization is
nonempty, `Command::spawn` is called with exactly the first token as program
and the remaining tokens as arguments, whatever the OS then does. -/
theorem exec_spawnCall (os : SpawnOracle) (cmd input p : String)
    (as : List String) (hsplit : splitWhitespace cmd = p :: as) :
    (execute_command_full os cmd input).spawnCall = some (p, as) := by
  simp only [execute_command_full, hsplit]
  split
  · rfl
  · split
    · rfl
    · split
      · rfl
      · split <;> rfl

/-! ## Witness oracles

Concrete OS behaviours used by witnesses and counterexamples. -/

/-- Child that echoes its stdin back on stdout and exits 0, modelling `cat`. -/
def catOracle : SpawnOracle := fun _ _ input =>
  SpawnResult.ok
    ⟨true, none, Except.ok ⟨true, "exit status: 0", stringBytes input, []⟩⟩

/-- Child that exits with status 1, writes "oops\n" to stderr, and also
writes bytes to stdout (which the worker must not report). -/
def failStatusOracle : SpawnOracle := fun _ _ _ =>
  SpawnResult.ok
    ⟨true, none,
      Except.ok
        ⟨false, "exit status: 1", stringBytes "SECRET-STDOUT",
          stringBytes "oops\n"⟩⟩

/-- Child whose stdin write fails with a broken pipe. -/
def brokenPipeOracle : SpawnOracle := fun _ _ _ =>
  SpawnResult.ok
    ⟨true, some "Broken pipe (os error 32)", Except.error "unreached"⟩

/-- Child for which `wait_with_output` fails. -/
def waitFailOracle : SpawnOracle := fun _ _ _ =>
  SpawnResult.ok ⟨true, none, Except.error "boom"⟩

/-- OS on which every spawn fails. -/
def spawnFailOracle : SpawnOracle := fun _ _ _ =>
  SpawnResult.err "No such file or directory (os error 2)"

/-! ## Claims about the Worker (`execute_command`) -/

/-- C1 (amended): if writing the input to the spawned child's stdin fails,
the Worker produces the Result text "Error writing to stdin: <cause>" and
returns immediately; on this path `wait_with_output` is never called, so the
child process is NOT reaped by the Worker. -/
theorem C1_stdin_write_failure (os : SpawnOracle) (cmd input p : String)
    (as : List String) (child : ChildBehavior) (e : String)
    (hsplit : splitWhitespace cmd = p :: as)
    (hspawn : os p as input = SpawnResult.ok child)
    (hstdin : child.stdinAvailable = true)
    (hwerr : child.writeError = some e) :
    execute_command os cmd input = "Error writing to stdin: " ++ e ∧
      (execute_command_full os cmd input).waited = false := by
  have h := exec_shape_write_err os cmd input p as child e hsplit hspawn hstdin hwerr
  exact ⟨by unfold execute_command; rw [h], by rw [h]⟩

/-- Witness for C1: concrete broken-pipe run. -/
theorem C1_stdin_write_failure_witness :
    execute_command brokenPipeOracle "wc" "hi" =
        "Error writing to stdin: Broken pipe (os error 32)" ∧
      (execute_command_full brokenPipeOracle "wc" "hi").waited = false :=
  C1_stdin_write_failure brokenPipeOracle "wc" "hi" "wc" []
    ⟨true, some "Broken pipe (os error 32)", Except.error "unreached"⟩
    "Broken pipe (os error 32)" (by decide) rfl rfl rfl

/-- Counterexample to C1 as stated: on a stdin write failure the Worker does
produce the claimed Result text, but `waited` is `false` — the source returns
from `execute_command` (src/main.rs line 380) without ever calling
`wait_with_output`, so the child is not reaped there, refuting the claim's
"the child process is still reaped (waited on)" conjunct. -/
theorem C1_reap_counterexample :
    execute_command brokenPipeOracle "cat" "hi" =
        "Error writing to stdin: Broken pipe (os error 32)" ∧
      (execute_command_full brokenPipeOracle "cat" "hi").waited = false := by
  decide

/-- C2 (amended): every Worker result falls in exactly one of SIX categories —
the five claimed ones plus `waitFailure` ("Failed to get command output:
<cause>", src/main.rs line 403) — with the result string in the format that
category dictates.  Exclusivity holds because the six `ResultCategory` values
are pairwise distinct constructors. -/
theorem C2_result_taxonomy (os : SpawnOracle) (cmd input : String) :
    ((execute_command_full os cmd input).category = ResultCategory.emptyCommand ∧
      execute_command os cmd input = "Error: Empty command") ∨
    ((execute_command_full os cmd input).category = ResultCategory.spawnFailure ∧
      ∃ e, execute_command os cmd input = "Failed to execute '" ++ cmd ++ "': " ++ e) ∨
    ((execute_command_full os cmd input).category = ResultCategory.stdinWriteFailure ∧
      ∃ e, execute_command os cmd input = "Error writing to stdin: " ++ e) ∨
    ((execute_command_full os cmd input).category = ResultCategory.waitFailure ∧
      ∃ e, execute_command os cmd input = "Failed to get command output: " ++ e) ∨
    ((execute_command_full os cmd input).category = ResultCategory.nonZeroExit ∧
      ∃ st err, execute_command os cmd input =
        "Failed (" ++ st ++ "):\n" ++ rustTrimEnd (utf8Lossy err)) ∨
    ((execute_command_full os cmd input).category = ResultCategory.success ∧
      ∃ out, execute_command os cmd input = rustTrimEnd (utf8Lossy out)) := by
  rcases hsp : splitWhitespace cmd with _ | ⟨p, as⟩
  · left
    have h := exec_shape_empty os cmd input hsp
    exact ⟨by rw [h], by unfold execute_command; rw [h]⟩
  · rcases hspawn : os p as input with e | child
    · right; left
      have h := exec_shape_spawn_err os cmd input p as e hsp hspawn
      exact ⟨by rw [h], e, by unfold execute_command; rw [h]⟩
    · rcases hwn : (if child.stdinAvailable then child.writeError else none) with _ | e
      · rcases hwait : child.waitResult with e | out
        · right; right; right; left
          have h := exec_shape_wait_err os cmd input p as child e hsp hspawn hwn hwait
          exact ⟨by rw [h], e, by unfold execute_command; rw [h]⟩
        · cases hsucc : out.success
          · right; right; right; right; left
            have h := exec_shape_nonzero os cmd input p as child out hsp hspawn hwn hwait hsucc
            exact ⟨by rw [h], out.statusDisplay, out.stderr, by unfold execute_command; rw [h]⟩
          · right; right; right; right; right
            have h := exec_shape_success os cmd input p as child out hsp hspawn hwn hwait hsucc
            exact ⟨by rw [h], out.stdout, by unfold execute_command; rw [h]⟩
      · right; right; left
        have hstdin : child.stdinAvailable = true := by
          cases hst : child.stdinAvailable
          · rw [hst] at hwn; simp at hwn
          · rfl
        have hwerr : child.writeError = some e := by
          rw [hstdin] at hwn; simpa using hwn
        have h := exec_shape_write_err os cmd input p as child e hsp hspawn hstdin hwerr
        exact ⟨by rw [h], e, by unfold execute_command; rw [h]⟩

/-- Counterexample to C2 as stated: a run where `wait_with_output` fails is
classified `waitFailure`, which is none of the five claimed categories, and
its result string "Failed to get command output: boom" matches the sixth
format. -/
theorem C2_counterexample :
    (execute_command_full waitFailOracle "cat" "hi").category =
        ResultCategory.waitFailure ∧
      ResultCategory.waitFailure ∉
        ([ResultCategory.emptyCommand, ResultCategory.spawnFailure,
          ResultCategory.stdinWriteFailure, ResultCategory.nonZeroExit,
          ResultCategory.success] : List ResultCategory) ∧
      execute_command waitFailOracle "cat" "hi" =
        "Failed to get command output: boom" := by
  decide

/-- C3: whenever the child exits with a success status, the Worker result is
the child's stdout bytes decoded permissively (lossy UTF-8, total — never a
hard failure) with trailing whitespace and newlines trimmed. -/
theorem C3_success_output (os : SpawnOracle) (cmd input p : String)
    (as : List String) (child : ChildBehavior) (out : ProcOutput)
    (hsplit : splitWhitespace cmd = p :: as)
    (hspawn : os p as input = SpawnResult.ok child)
    (hwrite : child.stdinAvailable = true → child.writeError = none)
    (hwait : child.waitResult = Except.ok out)
    (hsucc : out.success = true) :
    execute_command os cmd input = rustTrimEnd (utf8Lossy out.stdout) := by
  have hwn : (if child.stdinAvailable then child.writeError else none) = none := by
    cases hst : child.stdinAvailable
    · simp
    · simp [hwrite hst]
  have h := exec_shape_success os cmd input p as child out hsplit hspawn hwn hwait hsucc
  unfold execute_command
  rw [h]

/-- Witness for C3: input "hello\n" through `cat` yields exactly "hello". -/
theorem C3_success_output_witness :
    execute_command catOracle "cat" "hello\n" = "hello" := by
  have h := C3_success_output catOracle "cat" "hello\n" "cat" []
    ⟨true, none, Except.ok ⟨true, "exit status: 0", stringBytes "hello\n", []⟩⟩
    ⟨true, "exit status: 0", stringBytes "hello\n", []⟩
    (by decide) rfl (fun _ => rfl) rfl rfl
  rw [h]
  decide

/-- C4: whenever the child exits with a non-success status, the Worker result
is "Failed (<status>):\n<trimmed stderr>".  The right-hand side is built only
from the exit status and the stderr bytes, so the child's stdout bytes never
appear in it. -/
theorem C4_nonzero_exit_output (os : SpawnOracle) (cmd input p : String)
    (as : List String) (child : ChildBehavior) (out : ProcOutput)
    (hsplit : splitWhitespace cmd = p :: as)
    (hspawn : os p as input = SpawnResult.ok child)
    (hwrite : child.stdinAvailable = true → child.writeError = none)
    (hwait : child.waitResult = Except.ok out)
    (hfail : out.success = false) :
    execute_command os cmd input =
      "Failed (" ++ out.statusDisplay ++ "):\n" ++
        rustTrimEnd (utf8Lossy out.stderr) := by
  have hwn : (if child.stdinAvailable then child.writeError else none) = none := by
    cases hst : child.stdinAvailable
    · simp
    · simp [hwrite hst]
  have h := exec_shape_nonzero os cmd input p as child out hsplit hspawn hwn hwait hfail
  unfold execute_command
  rw [h]

/-- Witness for C4: a child exiting 1 with stderr "oops\n" and stdout
"SECRET-STDOUT" reports the status and trimmed stderr, and the stdout bytes
are absent from the result. -/
theorem C4_nonzero_exit_output_witness :
    execute_command failStatusOracle "false" "" =
      "Failed (exit status: 1):\noops" := by
  have h := C4_nonzero_exit_output failStatusOracle "false" "" "false" []
    ⟨true, none,
      Except.ok
        ⟨false, "exit status: 1", stringBytes "SECRET-STDOUT", stringBytes "oops\n"⟩⟩
    ⟨false, "exit status: 1", stringBytes "SECRET-STDOUT", stringBytes "oops\n"⟩
    (by decide) rfl (fun _ => rfl) rfl rfl
  rw [h]
  decide

/-- C5: a command string whose whitespace tokenization is empty yields the
Result text exactly "Error: Empty command", and no spawn is attempted. -/
theorem C5_empty_command (os : SpawnOracle) (cmd input : String)
    (hsplit : splitWhitespace cmd = []) :
    execute_command os cmd input = "Error: Empty command" ∧
      (execute_command_full os cmd input).spawnCall = none := by
  have h := exec_shape_empty os cmd input hsplit
  exact ⟨by unfold execute_command; rw [h], by rw [h]⟩

/-- Witness for C5: a whitespace-only command string. -/
theorem C5_empty_command_witness :
    execute_command spawnFailOracle " \t " "x" = "Error: Empty command" ∧
      (execute_command_full spawnFailOracle " \t " "x").spawnCall = none :=
  C5_empty_command spawnFailOracle " \t " "x" (by decide)

/-- C6: the command string is tokenized by whitespace splitting only; the
spawn call receives the first token verbatim as the program and the remaining
tokens verbatim, in order, as the arguments (no quoting: every token is
nonempty and contains no whitespace character, so no token can carry an
embedded space, quote-grouped or otherwise). -/
theorem C6_whitespace_tokenization (os : SpawnOracle) (cmd input p : String)
    (as : List String) (hsplit : splitWhitespace cmd = p :: as) :
    (execute_command_full os cmd input).spawnCall = some (p, as) ∧
      ∀ t ∈ p :: as, t ≠ "" ∧ ∀ c ∈ t.data, isRustWhitespace c = false := by
  refine ⟨exec_spawnCall os cmd input p as hsplit, ?_⟩
  intro t ht
  exact splitWhitespace_tokens cmd t (by rw [hsplit]; exact ht)

/-- Witness for C6: the spec's `wc -w` example tokenizes to program "wc" with
argument list ["-w"]. -/
theorem C6_whitespace_tokenization_witness :
    (execute_command_full catOracle "wc -w" "a b c").spawnCall =
      some ("wc", ["-w"]) :=
  (C6_whitespace_tokenization catOracle "wc -w" "a b c" "wc" ["-w"]
    (by decide)).1

/-! ## Dispatcher: `run_commands_async` -/

/-- Embedding of the `Config` struct (src/main.rs lines 35-40). -/
structure Config where
  run_commands_on_change : Bool
  commands : List String
  title : String

/-- Embedding of `run_commands_async` (src/main.rs lines 331-353): for each
configured command string, one worker thread runs `execute_command` on its
own copies of the command and the input, and sends exactly one
`(command, output)` message over the channel.  The returned list is the
multiset of sent messages, in dispatch order; arrival order at the consumer
is unconstrained. -/
def run_commands_async (os : SpawnOracle) (input : String) (config : Config) :
    List (String × String) :=
  config.commands.map (fun command => (command, execute_command os command input))

/-- C7: dispatching a request with N configured commands starts one Worker
per command, each sending exactly one Result, so exactly N Results are
delivered and their names are exactly the configured command names (even with
multiplicity and order). -/
theorem C7_one_result_per_command (os : SpawnOracle) (input : String)
    (config : Config) :
    (run_commands_async os input config).length = config.commands.length ∧
      (run_commands_async os input config).map Prod.fst = config.commands := by
  constructor
  · simp [run_commands_async]
  · simp [run_commands_async, List.map_map, Function.comp_def]

/-! ## Trigger path: clear slots, then dispatch -/

/-- Observable effects of the trigger closure, in program order. -/
inductive UIEvent where
  | setSlot (name : String) (text : String)
  | startWorker (command : String)
deriving DecidableEq

/-- Embedding of `trigger_run_commands` (src/main.rs lines 206-227) as its
trace of observable effects: first set every presentation row's text to the
empty string, in row order, then hand off to `run_commands_async`, which
spawns one worker thread per configured command, in order.  The closure
consults no state of workers still in flight from an earlier request. -/
def trigger_run_commands (slots : List String) (config : Config) :
    List UIEvent :=
  slots.map (fun name => UIEvent.setSlot name "") ++
    config.commands.map UIEvent.startWorker

/-- C8: on a new request every presentation slot is cleared to the empty
string, and every clear event precedes every worker start in the trace. -/
theorem C8_clear_before_dispatch (slots : List String) (config : Config) :
    (∀ n ∈ slots, UIEvent.setSlot n "" ∈ trigger_run_commands slots config) ∧
      ∀ i j : Nat, ∀ n t c : String,
        (trigger_run_commands slots config)[i]? = some (UIEvent.setSlot n t) →
        (trigger_run_commands slots config)[j]? = some (UIEvent.startWorker c) →
        i < j := by
  constructor
  · intro n hn
    unfold trigger_run_commands
    exact List.mem_append_left _ (List.mem_map.mpr ⟨n, hn, rfl⟩)
  · intro i j n t c hi hj
    unfold trigger_run_commands at hi hj
    rw [List.getElem?_append] at hi hj
    split at hi
    · rename_i hiA
      split at hj
      · exfalso
        rw [List.getElem?_map] at hj
        rcases Option.map_eq_some'.mp hj with ⟨x, _, hfx⟩
        exact UIEvent.noConfusion hfx
      · rename_i hjA
        have : (slots.map (fun name => UIEvent.setSlot name "")).length ≤ j := by
          omega
        omega
    · exfalso
      rw [List.getElem?_map] at hi
      rcases Option.map_eq_some'.mp hi with ⟨x, _, hfx⟩
      exact UIEvent.noConfusion hfx

/-- Witness for C8 at a concrete two-command configuration. -/
theorem C8_clear_before_dispatch_witness :
    UIEvent.setSlot "cat" "" ∈
        trigger_run_commands ["cat", "wc"] ⟨false, ["cat", "wc"], "Putput"⟩ ∧
      (0 : Nat) < 2 := by
  constructor
  · exact (C8_clear_before_dispatch ["cat", "wc"]
      ⟨false, ["cat", "wc"], "Putput"⟩).1 "cat" (by decide)
  · exact (C8_clear_before_dispatch ["cat", "wc"]
      ⟨false, ["cat", "wc"], "Putput"⟩).2 0 2 "cat" "" "cat"
      (by decide) (by decide)

/-! ## Consumer: applying one Result to the presentation rows -/

/-- Embedding of the receiver loop body in `build_ui` (src/main.rs lines
186-203): `find` locates the first row whose configured name equals the
Result's command name and sets its text; when no row matches, nothing
changes.  Rows are modelled as (configured name, displayed text) pairs. -/
def apply_update : List (String × String) → String → String →
    List (String × String)
  | [], _, _ => []
  | (name, text) :: rest, cmd_name, output_text =>
    if name = cmd_name then (name, output_text) :: rest
    else (name, text) :: apply_update rest cmd_name output_text

/-- C9: a Result updates the first row (in configured order) whose name
matches its command name, leaving every other row — including later rows with
a duplicate name — unchanged; a Result matching no row is a silent no-op. -/
theorem C9_first_match_update (c t : String) :
    (∀ slots : List (String × String), (∀ p ∈ slots, p.1 ≠ c) →
        apply_update slots c t = slots) ∧
      ∀ pre : List (String × String), ∀ old : String,
        ∀ post : List (String × String), (∀ p ∈ pre, p.1 ≠ c) →
          apply_update (pre ++ (c, old) :: post) c t = pre ++ (c, t) :: post := by
  constructor
  · intro slots h
    induction slots with
    | nil => rfl
    | cons hd tl ih =>
      obtain ⟨name, text⟩ := hd
      have hne : name ≠ c := h (name, text) (List.mem_cons_self _ _)
      simp only [apply_update, if_neg hne]
      rw [ih (fun q hq => h q (List.mem_cons_of_mem _ hq))]
  · intro pre old post hpre
    induction pre with
    | nil => simp [apply_update]
    | cons hd tl ih =>
      obtain ⟨name, text⟩ := hd
      have hne : name ≠ c := hpre (name, text) (List.mem_cons_self _ _)
      simp only [List.cons_append, apply_update, if_neg hne, List.append_eq]
      rw [ih (fun q hq => hpre q (List.mem_cons_of_mem _ hq))]

/-- Witness for C9: an unmatched name changes nothing; a duplicated name
updates only the first matching row. -/
theorem C9_first_match_update_witness :
    apply_update [("a", "x"), ("b", "y")] "z" "w" = [("a", "x"), ("b", "y")] ∧
      apply_update [("a", "x"), ("b", "y"), ("b", "q")] "b" "w" =
        [("a", "x"), ("b", "w"), ("b", "q")] := by
  constructor
  · exact (C9_first_match_update "z" "w").1 [("a", "x"), ("b", "y")] (by decide)
  · have h := (C9_first_match_update "b" "w").2 [("a", "x")] "y" [("b", "q")]
      (by decide)
    simpa using h

/-! ## Ctrl+digit copy shortcuts -/

/-- Key values the copy-shortcut handler distinguishes: the digit row and
numeric-keypad digits 1-9, and anything else. -/
inductive Key where
  | d1 | d2 | d3 | d4 | d5 | d6 | d7 | d8 | d9
  | kp1 | kp2 | kp3 | kp4 | kp5 | kp6 | kp7 | kp8 | kp9
  | other
deriving DecidableEq

/-- Keyval-to-index mapping of the shortcut handler (src/main.rs lines
276-297): digit n and keypad digit n both map to 0-based index n-1. -/
def keyToIndex : Key → Option Nat
  | Key.d1 => some 0
  | Key.d2 => some 1
  | Key.d3 => some 2
  | Key.d4 => some 3
  | Key.d5 => some 4
  | Key.d6 => some 5
  | Key.d7 => some 6
  | Key.d8 => some 7
  | Key.d9 => some 8
  | Key.kp1 => some 0
  | Key.kp2 => some 1
  | Key.kp3 => some 2
  | Key.kp4 => some 3
  | Key.kp5 => some 4
  | Key.kp6 => some 5
  | Key.kp7 => some 6
  | Key.kp8 => some 7
  | Key.kp9 => some 8
  | Key.other => none

/-- Whether the handler stops or propagates the key event. -/
inductive Propagation where
  | stop
  | proceed
deriving DecidableEq

/-- Observable outcome of one key press: what was written to the clipboard
(if anything) and whether the event propagates to other handlers. -/
structure KeyPressOutcome where
  clipboard : Option String
  propagation : Propagation
deriving DecidableEq

/-- Embedding of the copy-shortcut key handler (src/main.rs lines 272-318):
with Ctrl held and a digit key mapped to `index`, `rows.get(index)` is looked
up safely; a hit copies that row's text and stops propagation, a miss (index
out of bounds) copies nothing and lets the event proceed, as does any
non-shortcut key. -/
def handle_copy_shortcut (rows : List (String × String)) (ctrl : Bool)
    (keyval : Key) : KeyPressOutcome :=
  if ctrl then
    match keyToIndex keyval with
    | some index =>
      match rows[index]? with
      | some (_, text) => ⟨some text, Propagation.stop⟩
      | none => ⟨none, Propagation.proceed⟩
    | none => ⟨none, Propagation.proceed⟩
  else ⟨none, Propagation.proceed⟩

/-- C10: a Ctrl+digit shortcut whose 0-based index (always at most 8) is
out of range for the configured rows is a safe no-op: the lookup is the
total `rows[index]?` (no panic is possible), the clipboard is not written,
and the key event is propagated onward. -/
theorem C10_out_of_range_copy (rows : List (String × String)) (k : Key)
    (i : Nat) (hk : keyToIndex k = some i) (hlen : rows.length ≤ i) :
    handle_copy_shortcut rows true k = ⟨none, Propagation.proceed⟩ ∧ i ≤ 8 := by
  constructor
  · simp only [handle_copy_shortcut, hk, List.getElem?_eq_none hlen, if_true]
  · cases k <;> simp [keyToIndex] at hk <;> omega

/-- Witness for C10: Ctrl+3 with a single configured command. -/
theorem C10_out_of_range_copy_witness :
    handle_copy_shortcut [("cat", "out")] true Key.d3 =
        ⟨none, Propagation.proceed⟩ ∧ (2 : Nat) ≤ 8 :=
  C10_out_of_range_copy [("cat", "out")] Key.d3 2 (by decide) (by decide)

end Putput
